import Mathlib

/-!
Verification development for the OpenClaw question relay bridge
(src/skills/claude-code-bridge/bridge.py).

The bridge intercepts the AskUserQuestion tool inside an agent run,
persists the question set to a task directory, polls for an answer file
written by an external actor, and resumes the run with the resolved
answers (or with synthesized defaults on timeout).

The embedding below translates the bridge source into Lean:
pure helpers become Lean functions; the polling loop becomes a
fuel-indexed recursion over an environment that supplies, at each poll
index, the externally controlled answer-file content and the elapsed
wall-clock time; Python exceptions become an explicit error value
threaded through Except; the task directory becomes an explicit record
of artifact contents, and every filesystem-affecting step of the
handler is recorded in a trace of directory states.
-/

namespace Bridge

/-- A JSON value as produced by json.loads.  Numbers are modelled as
integers (no claim depends on fractional JSON numbers). -/
inductive Json where
  | null
  | bool (b : Bool)
  | num (n : Int)
  | str (s : String)
  | arr (elems : List Json)
  | obj (fields : List (String × Json))
deriving Repr

/-- Structural Boolean equality on JSON values. -/
def Json.beq : Json → Json → Bool
  | .null, .null => true
  | .bool a, .bool b => a == b
  | .num a, .num b => a == b
  | .str a, .str b => a == b
  | .arr a, .arr b => beqList a b
  | .obj a, .obj b => beqFields a b
  | _, _ => false
where
  beqList : List Json → List Json → Bool
    | [], [] => true
    | x :: xs, y :: ys => Json.beq x y && beqList xs ys
    | _, _ => false
  beqFields : List (String × Json) → List (String × Json) → Bool
    | [], [] => true
    | (k, v) :: xs, (l, w) :: ys => k == l && Json.beq v w && beqFields xs ys
    | _, _ => false

instance : BEq Json := ⟨Json.beq⟩

/-- A Python exception, reduced to the data the bridge uses:
the class name (type(e).__name__) and the message (str(e)). -/
structure PyErr where
  name : String
  msg : String
deriving DecidableEq, Repr

/-- The raw text content of a file, as far as json.loads is concerned:
either text that fails to parse (the carried string is the decode-error
message) or a successfully parsed JSON value. -/
inductive RawFile where
  | invalid (msg : String)
  | valid (j : Json)
deriving Repr

/-- read_json (bridge.py lines 51-54): returns None when the file does
not exist, otherwise json.loads of its text — which raises a
JSONDecodeError on malformed content.  The argument is the file
content at the moment of the read (none = file absent). -/
def read_json : Option RawFile → Except PyErr (Option Json)
  | none => .ok none
  | some (.invalid m) => .error ⟨"JSONDecodeError", m⟩
  | some (.valid j) => .ok (some j)

/-- One labeled option of a sub-question, as sent by the
AskUserQuestion tool: the source reads options[0]["label"]. -/
structure QOption where
  label : String
deriving DecidableEq, Repr

/-- One sub-question of an AskUserQuestion invocation: the source reads
q["question"] and q.get("options", []).  A question dict without an
options key is represented by options = []. -/
structure Question where
  question : String
  options : List QOption
deriving DecidableEq, Repr

/-- The status.json record (write_status, bridge.py lines 57-63).
The updated_at timestamp and pid fields are wall-clock / process
metadata supplied by the environment and are not modelled; no claim
refers to them. -/
structure StatusRec where
  status : String
  detail : String
deriving DecidableEq, Repr

/-- The task.json record (bridge.py lines 178-183); created_at is
wall-clock metadata, not modelled. -/
structure TaskMeta where
  task_id : String
  workdir : String
  prompt : String
deriving DecidableEq, Repr

/-- The task directory: one field per artifact, none = file absent.
questionFile holds the question set persisted in question.json (the
asked_at timestamp is not modelled); answerFile holds the raw content
of answer.json; resultFile holds the result.json fields; pidFile
records whether bridge.pid was written; log is the list of chunks
appended to output.log. -/
structure TaskDir where
  taskFile : Option TaskMeta := none
  questionFile : Option (List Question) := none
  answerFile : Option RawFile := none
  statusFile : Option StatusRec := none
  resultFile : Option (List (String × Json)) := none
  pidFile : Bool := false
  log : List String := []
deriving Repr

/-- write_status (bridge.py lines 57-63): overwrite status.json (via
write_json_atomic) with the given state tag and detail. -/
def write_status (d : TaskDir) (status : String) (detail : String) : TaskDir :=
  { d with statusFile := some ⟨status, detail⟩ }

/-- append_log (bridge.py lines 66-68): append a chunk to output.log. -/
def append_log (d : TaskDir) (text : String) : TaskDir :=
  { d with log := d.log ++ [text] }

/-- The state tag of the status artifact, when present. -/
def statusTag (d : TaskDir) : Option String :=
  d.statusFile.map StatusRec.status

/-- Python dict insertion d[k] = v over an association list in
insertion order: overwrite in place when the key is present, else
append a new entry at the end. -/
def dictInsert : List (String × Json) → String → Json → List (String × Json)
  | [], k, v => [(k, v)]
  | p :: rest, k, v =>
      if p.1 = k then (k, v) :: rest else p :: dictInsert rest k v

/-- Python dict lookup d.get(k): the value stored at key k, if any. -/
def dictLookup : List (String × Json) → String → Option Json
  | [], _ => none
  | p :: rest, k => if p.1 = k then some p.2 else dictLookup rest k

/-- Python truthiness of a parsed JSON value (bool(x)). -/
def Json.truthy : Json → Bool
  | .null => false
  | .bool b => b
  | .num n => n != 0
  | .str s => s != ""
  | .arr l => !l.isEmpty
  | .obj f => !f.isEmpty

/-- The Python membership test (k in x) on a parsed JSON value:
key membership for a dict, substring test for a string, element
membership for a list; a TypeError for the remaining types. -/
def Json.hasKey : Json → String → Except PyErr Bool
  | .obj f, k => .ok (f.any (fun p => p.1 == k))
  | .str s, k => .ok (s.containsSubstr k.toSubstring)
  | .arr l, k => .ok (l.contains (Json.str k))
  | _, _ => .error ⟨"TypeError", "argument of type is not iterable"⟩

/-- Python subscription x[k] with a string key on a parsed JSON value:
dict lookup (KeyError when missing), TypeError otherwise. -/
def Json.item : Json → String → Except PyErr Json
  | .obj f, k =>
      match f.find? (fun p => p.1 == k) with
      | some p => .ok p.2
      | none => .error ⟨"KeyError", k⟩
  | _, k => .error ⟨"TypeError", k⟩

/-- The answer-mapping step of handle_ask_user_question (bridge.py
lines 111-118): answers = {}; if answer_data and "answers" in
answer_data: answers = answer_data["answers"]; elif answer_data and
"text" in answer_data: if questions: answers = {questions[0]["question"]:
answer_data["text"]}.  answer_data is the value read_json returned
(None is falsy). -/
def resolveAnswers (questions : List Question) (answer_data : Option Json) :
    Except PyErr Json :=
  match answer_data with
  | none => .ok (Json.obj [])
  | some j =>
    if j.truthy then
      match j.hasKey "answers" with
      | .error e => .error e
      | .ok true => j.item "answers"
      | .ok false =>
        match j.hasKey "text" with
        | .error e => .error e
        | .ok true =>
          match questions with
          | [] => .ok (Json.obj [])
          | q :: _ =>
            match j.item "text" with
            | .error e => .error e
            | .ok t => .ok (Json.obj [(q.question, t)])
        | .ok false => .ok (Json.obj [])
    else
      .ok (Json.obj [])

/-- The timeout default (bridge.py lines 130-137): for each
sub-question in order, bind its question text to the first option
label when options is non-empty, else to "No preference" — a Python
dict built by repeated insertion, so a later sub-question with the
same text overwrites an earlier one. -/
def defaultStep (d : List (String × Json)) (q : Question) : List (String × Json) :=
  match q.options with
  | [] => dictInsert d q.question (Json.str "No preference")
  | o :: _ => dictInsert d q.question (Json.str o.label)

/-- The complete default-answer dict built by the timeout branch. -/
def defaultAnswersDict (questions : List Question) : List (String × Json) :=
  questions.foldl defaultStep []

/-- The default the source synthesizes for one sub-question on timeout:
the first option label if options exist, else "No preference". -/
def defaultLabel (q : Question) : String :=
  match q.options with
  | [] => "No preference"
  | o :: _ => o.label

/-- POLL_INTERVAL (bridge.py line 38).  The sleep itself is abstracted
into the succession of poll indices, so this constant is not consumed
by the loop model. -/
def POLL_INTERVAL : ℚ := 2

/-- ANSWER_TIMEOUT (bridge.py line 39), in seconds. -/
def ANSWER_TIMEOUT : ℚ := 600

/-- The input_data dict handed to the permission callback: the value of
its "questions" key (input_data.get("questions", []) yields [] when the
key is absent) together with the remaining fields, which the bridge
never inspects and passes through unchanged. -/
structure InputData where
  questions : List Question
  rest : List (String × Json)
deriving Repr

/-- The updated_input dict of a PermissionResultAllow: either the
original input_data object passed through unchanged (non-interactive
tools), or the fresh two-key dict {"questions": questions, "answers":
answers} built by handle_ask_user_question. -/
inductive UpdatedInput where
  | raw (input : InputData)
  | resolved (questions : List Question) (answers : Json)
deriving Repr

/-- The SDK permission result returned by the callback.  The bridge
imports PermissionResultDeny but only ever constructs allow results. -/
inductive PermissionResult where
  | allow (updated_input : UpdatedInput)
  | deny (message : String)
deriving Repr

/-- Outcome of the polling section of handle_ask_user_question:
ok = a permission result was returned; err = a Python exception
escaped; polling = the loop is still running after the given number of
poll iterations (fuel exhausted — the source loop has no iteration
bound, so this case stands for an execution observed mid-poll). -/
inductive PollOutcome where
  | ok (r : PermissionResult)
  | err (e : PyErr)
  | polling
deriving Repr

/-- The polling loop of handle_ask_user_question (bridge.py lines
101-144), one recursive step per iteration of the while loop, indexed
by the poll count k.  The externally controlled world is supplied by
two functions: fsAnswer k is the content of answer.json as observed at
iteration k (none = absent), and elapsed k is the value of
time.time() - start_time at the timeout check of iteration k.  Every
filesystem-affecting step appends the resulting directory state to the
returned trace.  Within an iteration: if the answer file exists it is
read (a decode failure raises), question.json and answer.json are
unlinked, status is set back to running, and the resolved answers are
returned; otherwise, if the elapsed time exceeds ANSWER_TIMEOUT,
question.json is unlinked, status is set back to running, and the
default answers are returned; otherwise the loop sleeps and polls
again. -/
def pollLoop (fsAnswer : Nat → Option RawFile) (elapsed : Nat → ℚ)
    (questions : List Question) :
    Nat → Nat → TaskDir → List TaskDir × PollOutcome
  | 0, _, _ => ([], .polling)
  | fuel + 1, k, s =>
    let sObs : TaskDir := { s with answerFile := fsAnswer k }
    match fsAnswer k with
    | some raw =>
      match read_json (some raw) with
      | .error e => ([sObs], .err e)
      | .ok answer_data =>
        let s1 : TaskDir := { sObs with questionFile := none }
        let s2 : TaskDir := { s1 with answerFile := none }
        let s3 := write_status s2 "running" "Received answer, continuing"
        match resolveAnswers questions answer_data with
        | .error e => ([sObs, s1, s2, s3], .err e)
        | .ok answers =>
            ([sObs, s1, s2, s3], .ok (.allow (.resolved questions answers)))
    | none =>
      if ANSWER_TIMEOUT < elapsed k then
        let s1 : TaskDir := { sObs with questionFile := none }
        let s2 := write_status s1 "running" "Answer timed out, continuing with default"
        ([sObs, s1, s2],
         .ok (.allow (.resolved questions (Json.obj (defaultAnswersDict questions)))))
      else
        let r := pollLoop fsAnswer elapsed questions fuel (k + 1) sObs
        (sObs :: r.1, r.2)

/-- handle_ask_user_question (bridge.py lines 82-144): extract the
question set from input_data, persist question.json, set status to
waiting_for_answer, delete any stale answer.json, then poll.  The
returned trace starts with the directory state on entry and records
every subsequent filesystem-affecting step. -/
def handle_ask_user_question (fsAnswer : Nat → Option RawFile)
    (elapsed : Nat → ℚ) (fuel : Nat) (input_data : InputData)
    (d : TaskDir) : List TaskDir × PollOutcome :=
  let questions := input_data.questions
  let s1 : TaskDir := { d with questionFile := some questions }
  let s2 := write_status s1 "waiting_for_answer" "Claude is asking a clarifying question"
  let s3 : TaskDir := { s2 with answerFile := none }
  let r := pollLoop fsAnswer elapsed questions fuel 0 s3
  (d :: s1 :: s2 :: s3 :: r.1, r.2)

/-- can_use_tool (bridge.py lines 73-79): relay AskUserQuestion through
handle_ask_user_question; auto-approve every other tool with its input
unchanged, touching nothing in the task directory (empty trace). -/
def can_use_tool (fsAnswer : Nat → Option RawFile) (elapsed : Nat → ℚ)
    (fuel : Nat) (tool_name : String) (input_data : InputData)
    (d : TaskDir) : List TaskDir × PollOutcome :=
  if tool_name == "AskUserQuestion" then
    handle_ask_user_question fsAnswer elapsed fuel input_data d
  else
    ([], .ok (.allow (.raw input_data)))

/-- A content block of an AssistantMessage, reduced to the data the
bridge reads: the text of a TextBlock, the tool name of a ToolUseBlock
(its id and input are never read), anything else ignored. -/
inductive ContentBlock where
  | textBlock (text : String)
  | toolUseBlock (name : String)
  | otherBlock
deriving Repr

/-- A ResultMessage as the bridge sees it: subtype plus the optional
attributes probed with hasattr (none = attribute absent).  The cost is
kept as an arbitrary JSON value since its numeric type is never
inspected. -/
structure ResultMessage where
  subtype : String
  result : Option String
  session_id : Option String
  num_turns : Option Int
  total_cost_usd : Option Json
  is_error : Option Bool
deriving Repr

/-- A message yielded by the query stream: the two kinds the bridge
handles, and a constructor for every other message type (ignored). -/
inductive Message where
  | assistant (content : List ContentBlock)
  | resultMsg (m : ResultMessage)
  | otherMessage
deriving Repr

/-- The result.json fields assembled in run_bridge (bridge.py lines
213-227): subtype always, then each attribute that hasattr reports.
The completed_at wall-clock timestamp is not modelled. -/
def resultData (m : ResultMessage) : List (String × Json) :=
  [("subtype", Json.str m.subtype)]
  ++ (match m.result with | some r => [("result", Json.str r)] | none => [])
  ++ (match m.session_id with | some s => [("session_id", Json.str s)] | none => [])
  ++ (match m.num_turns with | some n => [("num_turns", Json.num n)] | none => [])
  ++ (match m.total_cost_usd with | some c => [("total_cost_usd", c)] | none => [])
  ++ (match m.is_error with | some b => [("is_error", Json.bool b)] | none => [])

/-- Processing of one content block of an AssistantMessage (bridge.py
lines 206-210): a text block is appended to output.log verbatim with a
trailing newline; a tool-use block is logged as a one-line marker
naming the tool; other blocks are ignored. -/
def processBlock (d : TaskDir) (b : ContentBlock) : TaskDir :=
  match b with
  | .textBlock t => append_log d (t ++ "\n")
  | .toolUseBlock n => append_log d ("[Tool: " ++ n ++ "]\n")
  | .otherBlock => d

/-- Processing of one message of the query stream (bridge.py lines
205-235): an AssistantMessage folds processBlock over its content; a
ResultMessage writes result.json and sets the terminal status from
getattr(message, "is_error", False); other messages are ignored. -/
def processMessage (d : TaskDir) : Message → TaskDir
  | .assistant blocks => blocks.foldl processBlock d
  | .resultMsg m =>
      let d1 : TaskDir := { d with resultFile := some (resultData m) }
      if m.is_error.getD false then
        write_status d1 "error" "Claude Code reported an error"
      else
        write_status d1 "complete" "Task finished successfully"
  | .otherMessage => d

/-- The observable behavior of one query() run: the messages it yields
in order, and the exception (if any) it raises after them.  A fault
raised mid-stream is represented by listing exactly the messages
processed before it. -/
structure Session where
  messages : List Message
  fault : Option PyErr

/-- run_bridge (bridge.py lines 169-240): create the task directory,
write bridge.pid and task.json, set status starting, touch output.log
(the log is modelled as always present, so the touch is implicit), set
status running, process the message stream, and on an uncaught
exception set status error with the fault class and message, append a
bridge-error line to the log, and re-raise.  Tool-permission callbacks
fire inside the stream iteration through can_use_tool and are modelled
separately; their directory effects are those of
handle_ask_user_question. -/
def run_bridge (task_id workdir prompt : String) (session : Session)
    (d0 : TaskDir) : TaskDir × Except PyErr Unit :=
  let d1 : TaskDir := { d0 with pidFile := true }
  let d2 : TaskDir := { d1 with taskFile := some ⟨task_id, workdir, prompt⟩ }
  let d3 := write_status d2 "starting" "Initializing Claude Code session"
  let d4 := write_status d3 "running" "Claude Code session active"
  let d5 := session.messages.foldl processMessage d4
  match session.fault with
  | none => (d5, .ok ())
  | some e =>
      let d6 := write_status d5 "error" (e.name ++ ": " ++ e.msg)
      let d7 := append_log d6 ("\n[BRIDGE ERROR] " ++ e.name ++ ": " ++ e.msg ++ "\n")
      (d7, .error e)

/-- A filesystem at the granularity write_json_atomic works at: a
finite map from path to file content (text). -/
abbrev MicroFs := List (String × String)

/-- The content at a path, if the file exists. -/
def MicroFs.read : MicroFs → String → Option String
  | [], _ => none
  | q :: rest, p => if q.1 = p then some q.2 else MicroFs.read rest p

/-- Store content at a path (create or overwrite). -/
def MicroFs.setFile : MicroFs → String → String → MicroFs
  | [], p, c => [(p, c)]
  | q :: rest, p, c =>
      if q.1 = p then (p, c) :: rest else q :: MicroFs.setFile rest p c

/-- Remove a path. -/
def MicroFs.remove (fs : MicroFs) (p : String) : MicroFs :=
  List.filter (fun q => !(q.1 == p)) fs

/-- A filesystem operation the bridge performs when persisting a JSON
artifact: Path.write_text (not atomic: a concurrent reader may observe
any prefix of the content during the write) or Path.rename (atomic). -/
inductive FsOp where
  | writeFile (path content : String)
  | rename (src dst : String)

/-- The filesystem after an operation completes. -/
def applyOp (fs : MicroFs) : FsOp → MicroFs
  | .writeFile p c => fs.setFile p c
  | .rename src dst =>
      match fs.read src with
      | some c => (fs.remove src).setFile dst c
      | none => fs

/-- The filesystem states a concurrent reader may observe while an
operation runs, ending in the completed state: every prefix of the
content for a non-atomic write, only the completed state for a
rename. -/
def observableStates (fs : MicroFs) : FsOp → List MicroFs
  | .writeFile p c =>
      (List.range (c.length + 1)).map (fun i => fs.setFile p (c.take i))
  | .rename src dst => [applyOp fs (.rename src dst)]

/-- All filesystem states observable during a sequence of operations. -/
def runOps (fs : MicroFs) : List FsOp → List MicroFs
  | [] => []
  | op :: rest => observableStates fs op ++ runOps (applyOp fs op) rest

/-- Path.with_suffix for the simple file names the bridge uses
(a final component of the form stem.ext): replace the extension — the
part from the last dot on — with the given suffix, or append the
suffix when the name has no dot. -/
def with_suffix (filepath : String) (suffix : String) : String :=
  let cs := filepath.toList
  if cs.contains '.' then
    String.mk (((cs.reverse.dropWhile (fun c => c ≠ '.')).drop 1).reverse) ++ suffix
  else
    filepath ++ suffix

/-- write_json_atomic (bridge.py lines 44-48) as the operation
sequence it performs: tmp = filepath.with_suffix(".tmp");
tmp.write_text(serialized); tmp.rename(filepath) — where serialized is
json.dumps(data, indent=2, default=str) (serialization itself is not
modelled).  write_status, the question write, the task.json write and
the result.json write all persist through this function. -/
def write_json_atomic (filepath : String) (serialized : String) : List FsOp :=
  [ FsOp.writeFile (with_suffix filepath ".tmp") serialized,
    FsOp.rename (with_suffix filepath ".tmp") filepath ]

/-! Concrete instances used to evaluate the development on explicit
inputs: the question of testable scenario A of the spec, a
duplicate-text question set, answer-file environments, and clocks. -/

/-- The scenario A question: one sub-question with options Yes and No. -/
def qProceed : Question := ⟨"Proceed?", [⟨"Yes"⟩, ⟨"No"⟩]⟩

/-- Tool input carrying only the scenario A question. -/
def inpProceed : InputData := ⟨[qProceed], []⟩

/-- Tool input with an empty question set. -/
def inpEmpty : InputData := ⟨[], []⟩

/-- Two sub-questions sharing the text Q with different first options. -/
def dupQs : List Question := [⟨"Q", [⟨"X"⟩]⟩, ⟨"Q", [⟨"Y"⟩]⟩]

/-- Tool input carrying the duplicate-text question set. -/
def inpDup : InputData := ⟨dupQs, []⟩

/-- Two sub-questions sharing the text Q, both without options. -/
def dupNoOptQs : List Question := [⟨"Q", []⟩, ⟨"Q", []⟩]

/-- Tool input carrying the optionless duplicate-text question set. -/
def inpDupNoOpt : InputData := ⟨dupNoOptQs, []⟩

/-- The scenario C question set: two sub-questions. -/
def colorQs : List Question := [⟨"Favorite color?", [⟨"Red"⟩]⟩, ⟨"Size?", [⟨"Small"⟩]⟩]

/-- Tool input carrying the scenario C question set. -/
def inpColor : InputData := ⟨colorQs, []⟩

/-- An environment in which answer.json never appears. -/
def noAnswerFs : Nat → Option RawFile := fun _ => none

/-- An environment in which answer.json holds an explicit mapping
binding Proceed? to No from the first poll on. -/
def mappingAnswerFs : Nat → Option RawFile :=
  fun _ => some (RawFile.valid (Json.obj [("answers", Json.obj [("Proceed?", Json.str "No")])]))

/-- An environment in which answer.json holds only a free-text field. -/
def textAnswerFs : Nat → Option RawFile :=
  fun _ => some (RawFile.valid (Json.obj [("text", Json.str "Blue")]))

/-- An environment in which answer.json holds text that is not valid
JSON. -/
def invalidAnswerFs : Nat → Option RawFile :=
  fun _ => some (RawFile.invalid "Expecting value: line 1 column 1 (char 0)")

/-- An environment in which answer.json parses to a dict carrying
neither an answers nor a text field. -/
def unrecognizedAnswerFs : Nat → Option RawFile :=
  fun _ => some (RawFile.valid (Json.obj [("foo", Json.str "bar")]))

/-- A clock already beyond ANSWER_TIMEOUT at the first poll. -/
def lateClock : Nat → ℚ := fun _ => 601

/-- A clock still at zero at every poll. -/
def zeroClock : Nat → ℚ := fun _ => 0

/-- A task directory as run_bridge leaves it when the session starts:
status running, nothing else relevant to the handler present. -/
def runningDir : TaskDir :=
  { taskFile := some ⟨"t1", "/w", "p"⟩
    statusFile := some ⟨"running", "Claude Code session active"⟩
    pidFile := true }

/-- A query stream that yields one text message and then raises a
ValueError. -/
def faultSession : Session :=
  ⟨[Message.assistant [ContentBlock.textBlock "hello"]], some ⟨"ValueError", "boom"⟩⟩

/-! Helper lemmas about the dict model, the polling loop and the
trace, shared by the claim theorems below. -/

theorem dictLookup_dictInsert_self (d : List (String × Json)) (k : String) (v : Json) :
    dictLookup (dictInsert d k v) k = some v := by
  induction d with
  | nil => simp [dictInsert, dictLookup]
  | cons p rest ih =>
      by_cases h : p.1 = k
      · simp [dictInsert, dictLookup, h]
      · simp [dictInsert, dictLookup, h, ih]

theorem dictLookup_dictInsert_ne (d : List (String × Json)) (k k2 : String)
    (v : Json) (h : k ≠ k2) :
    dictLookup (dictInsert d k v) k2 = dictLookup d k2 := by
  induction d with
  | nil => simp [dictInsert, dictLookup, h]
  | cons p rest ih =>
      by_cases hp : p.1 = k
      · simp [dictInsert, dictLookup, hp, h]
      · simp only [dictInsert, dictLookup, if_neg hp]
        by_cases hp2 : p.1 = k2
        · simp [dictLookup, hp2]
        · simp [dictLookup, hp2, ih]

theorem defaultStep_eq (d : List (String × Json)) (q : Question) :
    defaultStep d q = dictInsert d q.question (Json.str (defaultLabel q)) := by
  cases h : q.options <;> simp [defaultStep, defaultLabel, h]

theorem dictLookup_foldl_defaultStep_not_mem :
    ∀ (qs : List Question) (d : List (String × Json)) (k : String),
      k ∉ qs.map Question.question →
      dictLookup (List.foldl defaultStep d qs) k = dictLookup d k := by
  intro qs
  induction qs with
  | nil => intro d k _; rfl
  | cons q rest ih =>
      intro d k hk
      simp only [List.map_cons, List.mem_cons, not_or] at hk
      simp only [List.foldl_cons]
      rw [ih _ _ hk.2, defaultStep_eq,
          dictLookup_dictInsert_ne _ _ _ _ (fun h => hk.1 h.symm)]

theorem dictLookup_foldl_defaultStep_mem :
    ∀ (qs : List Question) (d : List (String × Json)) (q : Question),
      q ∈ qs → (qs.map Question.question).Nodup →
      dictLookup (List.foldl defaultStep d qs) q.question =
        some (Json.str (defaultLabel q)) := by
  intro qs
  induction qs with
  | nil => intro d q h _; cases h
  | cons p rest ih =>
      intro d q hq hnd
      simp only [List.map_cons, List.nodup_cons] at hnd
      rcases List.mem_cons.mp hq with h | h
      · subst h
        simp only [List.foldl_cons]
        rw [dictLookup_foldl_defaultStep_not_mem rest _ _ hnd.1,
            defaultStep_eq, dictLookup_dictInsert_self]
      · simp only [List.foldl_cons]
        exact ih _ _ h hnd.2

theorem dictLookup_defaultAnswersDict (qs : List Question) (q : Question)
    (hq : q ∈ qs) (hnd : (qs.map Question.question).Nodup) :
    dictLookup (defaultAnswersDict qs) q.question =
      some (Json.str (defaultLabel q)) :=
  dictLookup_foldl_defaultStep_mem qs [] q hq hnd

theorem pollLoop_outcome_indep (fsA : Nat → Option RawFile) (el : Nat → ℚ)
    (qs : List Question) :
    ∀ (fuel k : Nat) (s t : TaskDir),
      (pollLoop fsA el qs fuel k s).2 = (pollLoop fsA el qs fuel k t).2 := by
  intro fuel
  induction fuel with
  | zero => intro k s t; rfl
  | succ n ih =>
      intro k s t
      rw [pollLoop, pollLoop]
      cases hA : fsA k with
      | some raw =>
          cases raw with
          | invalid m => rfl
          | valid j =>
              dsimp only [read_json]
              cases hres : resolveAnswers qs (some j) with
              | error e => rfl
              | ok a => rfl
      | none =>
          dsimp only
          by_cases ht : ANSWER_TIMEOUT < el k
          · simp only [if_pos ht]
          · simp only [if_neg ht]
            exact ih (k + 1) _ _

theorem pollLoop_outcome_skip (fsA : Nat → Option RawFile) (el : Nat → ℚ)
    (qs : List Question) (K : Nat)
    (hA : ∀ j, j < K → fsA j = none)
    (hT : ∀ j, j < K → ¬ ANSWER_TIMEOUT < el j) :
    ∀ (fuel k : Nat) (s : TaskDir), k ≤ K → K < k + fuel →
      (pollLoop fsA el qs fuel k s).2 =
        (pollLoop fsA el qs (k + fuel - K) K s).2 := by
  intro fuel
  induction fuel with
  | zero => intro k s hk hK; omega
  | succ n ih =>
      intro k s hk hK
      rcases Nat.eq_or_lt_of_le hk with he | hlt
      · subst he
        have harith : k + (n + 1) - k = n + 1 := by omega
        rw [harith]
      · have hAk := hA k hlt
        have hTk := hT k hlt
        conv_lhs => rw [pollLoop]
        simp only [hAk, if_neg hTk]
        have h2 : K < (k + 1) + n := by omega
        rw [ih (k + 1) _ hlt h2]
        have harith : (k + 1) + n - K = k + (n + 1) - K := by omega
        rw [harith]
        exact pollLoop_outcome_indep fsA el qs _ K _ s

theorem handle_outcome_eq_pollLoop (fsA : Nat → Option RawFile)
    (el : Nat → ℚ) (fuel : Nat) (input_data : InputData) (d : TaskDir) :
    (handle_ask_user_question fsA el fuel input_data d).2 =
      (pollLoop fsA el input_data.questions fuel 0 d).2 := by
  simp only [handle_ask_user_question]
  exact pollLoop_outcome_indep fsA el input_data.questions fuel 0 _ d

theorem handle_outcome_at (fsA : Nat → Option RawFile) (el : Nat → ℚ)
    (fuel K : Nat) (input_data : InputData) (d : TaskDir)
    (hA : ∀ j, j < K → fsA j = none)
    (hT : ∀ j, j < K → ¬ ANSWER_TIMEOUT < el j)
    (hfuel : K < fuel) :
    (handle_ask_user_question fsA el fuel input_data d).2 =
      (pollLoop fsA el input_data.questions (fuel - K) K d).2 := by
  rw [handle_outcome_eq_pollLoop]
  have h := pollLoop_outcome_skip fsA el input_data.questions K hA hT fuel 0
      d (Nat.zero_le K) (by omega)
  simpa using h

theorem pollLoop_trace_last (fsA : Nat → Option RawFile) (el : Nat → ℚ)
    (qs : List Question) :
    ∀ (fuel k : Nat) (s : TaskDir) (r : PermissionResult),
      (pollLoop fsA el qs fuel k s).2 = PollOutcome.ok r →
      ∃ t, (pollLoop fsA el qs fuel k s).1.getLast? = some t ∧
        t.questionFile = none ∧ t.answerFile = none := by
  intro fuel
  induction fuel with
  | zero => intro k s r h; exact absurd h (by simp [pollLoop])
  | succ n ih =>
      intro k s r h
      rw [pollLoop] at h ⊢
      cases hA : fsA k with
      | some raw =>
          rw [hA] at h
          cases raw with
          | invalid m => dsimp only [read_json] at h; exact nomatch h
          | valid j =>
              dsimp only [read_json] at h ⊢
              cases hres : resolveAnswers qs (some j) with
              | error e => exact ⟨_, rfl, rfl, rfl⟩
              | ok a => exact ⟨_, rfl, rfl, rfl⟩
      | none =>
          rw [hA] at h
          dsimp only at h ⊢
          by_cases ht : ANSWER_TIMEOUT < el k
          · simp only [if_pos ht] at h ⊢
            refine ⟨_, rfl, rfl, ?_⟩
            simp [write_status]
          · simp only [if_neg ht] at h ⊢
            obtain ⟨t, hlast, hq, ha⟩ := ih (k + 1) _ r h
            exact ⟨t, List.mem_getLast?_cons hlast, hq, ha⟩

theorem pollLoop_trace_status (fsA : Nat → Option RawFile) (el : Nat → ℚ)
    (qs : List Question) :
    ∀ (fuel k : Nat) (s : TaskDir),
      statusTag s = some "waiting_for_answer" →
      ∀ t ∈ (pollLoop fsA el qs fuel k s).1,
        t.questionFile.isSome → statusTag t = some "waiting_for_answer" := by
  intro fuel
  induction fuel with
  | zero =>
      intro k s hs t ht
      simp [pollLoop] at ht
  | succ n ih =>
      intro k s hs t ht hq
      rw [pollLoop] at ht
      split at ht
      · -- answer file present
        split at ht
        · -- read_json raised
          simp only [List.mem_singleton] at ht
          subst ht
          exact hs
        · -- read_json succeeded
          split at ht
          · -- resolveAnswers raised
            simp only [List.mem_cons, List.not_mem_nil, or_false] at ht
            rcases ht with ht | ht | ht | ht <;> subst ht
            · exact hs
            · simp at hq
            · simp at hq
            · simp [write_status] at hq
          · -- resolveAnswers succeeded
            simp only [List.mem_cons, List.not_mem_nil, or_false] at ht
            rcases ht with ht | ht | ht | ht <;> subst ht
            · exact hs
            · simp at hq
            · simp at hq
            · simp [write_status] at hq
      · -- answer file absent
        split at ht
        · -- timed out
          simp only [List.mem_cons, List.not_mem_nil, or_false] at ht
          rcases ht with ht | ht | ht <;> subst ht
          · exact hs
          · simp at hq
          · simp [write_status] at hq
        · -- keep polling
          rcases List.mem_cons.mp ht with ht | ht
          · subst ht; exact hs
          · exact ih (k + 1) { s with answerFile := fsA k } hs t ht hq

theorem processBlock_log_mono (d : TaskDir) (b : ContentBlock) (x : String)
    (h : x ∈ d.log) : x ∈ (processBlock d b).log := by
  cases b <;> simp [processBlock, append_log] <;> first | exact Or.inl h | exact h

theorem foldl_processBlock_log_mono :
    ∀ (blocks : List ContentBlock) (d : TaskDir) (x : String),
      x ∈ d.log → x ∈ (List.foldl processBlock d blocks).log := by
  intro blocks
  induction blocks with
  | nil => intro d x h; exact h
  | cons b bs ih => intro d x h; exact ih _ _ (processBlock_log_mono d b x h)

theorem handle_trace_eq (fsA : Nat → Option RawFile) (el : Nat → ℚ)
    (fuel : Nat) (input_data : InputData) (d : TaskDir) :
    (handle_ask_user_question fsA el fuel input_data d).1 =
      d ::
      { d with questionFile := some input_data.questions } ::
      { d with questionFile := some input_data.questions,
               statusFile := some ⟨"waiting_for_answer",
                 "Claude is asking a clarifying question"⟩ } ::
      { d with questionFile := some input_data.questions,
               statusFile := some ⟨"waiting_for_answer",
                 "Claude is asking a clarifying question"⟩,
               answerFile := none } ::
      (pollLoop fsA el input_data.questions fuel 0
        { d with questionFile := some input_data.questions,
                 statusFile := some ⟨"waiting_for_answer",
                   "Claude is asking a clarifying question"⟩,
                 answerFile := none }).1 := rfl

theorem marker_in_log_of_toolUse :
    ∀ (blocks : List ContentBlock) (d : TaskDir) (name : String),
      ContentBlock.toolUseBlock name ∈ blocks →
      ("[Tool: " ++ name ++ "]\n") ∈ (List.foldl processBlock d blocks).log := by
  intro blocks
  induction blocks with
  | nil => intro d name h; cases h
  | cons b bs ih =>
      intro d name h
      rcases List.mem_cons.mp h with hb | hb
      · subst hb
        simp only [List.foldl_cons]
        exact foldl_processBlock_log_mono bs _ _ (by simp [processBlock, append_log])
      · simp only [List.foldl_cons]
        exact ih _ name hb

theorem MicroFs.read_setFile_self :
    ∀ (fs : MicroFs) (p c : String), (fs.setFile p c).read p = some c := by
  intro fs p c
  induction fs with
  | nil => simp [MicroFs.setFile, MicroFs.read]
  | cons q rest ih =>
      by_cases h : q.1 = p
      · simp [MicroFs.setFile, MicroFs.read, h]
      · simp [MicroFs.setFile, MicroFs.read, h, ih]

theorem MicroFs.read_setFile_ne :
    ∀ (fs : MicroFs) (p q c : String), p ≠ q →
      (fs.setFile p c).read q = fs.read q := by
  intro fs p q c hne
  induction fs with
  | nil => simp [MicroFs.setFile, MicroFs.read, hne]
  | cons e rest ih =>
      by_cases h : e.1 = p
      · by_cases h2 : e.1 = q
        · exact absurd (h ▸ h2 : p = q) (by exact fun hh => hne hh)
        · simp [MicroFs.setFile, MicroFs.read, h, h2, hne]
      · by_cases h2 : e.1 = q
        · simp [MicroFs.setFile, MicroFs.read, h, h2, Ne.symm hne]
        · simp [MicroFs.setFile, MicroFs.read, h, h2, ih]

/-- C8: every durable JSON artifact write goes through
write_json_atomic, which first writes the complete serialized content
to a temporary path and then renames it into place; consequently, at
every filesystem state observable during the write, the destination
path holds either its previous content or the complete new content —
never a partial write. -/
theorem C8_atomic_write_no_partial_content (fs : MicroFs)
    (filepath serialized : String)
    (hne : with_suffix filepath ".tmp" ≠ filepath) :
    ∀ s ∈ runOps fs (write_json_atomic filepath serialized),
      MicroFs.read s filepath = MicroFs.read fs filepath ∨
      MicroFs.read s filepath = some serialized := by
  intro s hs
  simp only [write_json_atomic, runOps, observableStates, List.append_nil] at hs
  rw [List.mem_append] at hs
  rcases hs with hs | hs
  · left
    simp only [List.mem_map] at hs
    obtain ⟨i, _, rfl⟩ := hs
    exact MicroFs.read_setFile_ne _ _ _ _ hne
  · simp only [List.mem_singleton] at hs
    subst hs
    right
    have hr : (fs.setFile (with_suffix filepath ".tmp") serialized).read
        (with_suffix filepath ".tmp") = some serialized :=
      MicroFs.read_setFile_self _ _ _
    have happ : applyOp (fs.setFile (with_suffix filepath ".tmp") serialized)
        (FsOp.rename (with_suffix filepath ".tmp") filepath) =
        ((fs.setFile (with_suffix filepath ".tmp") serialized).remove
          (with_suffix filepath ".tmp")).setFile filepath serialized := by
      rw [applyOp, hr]
    have hw : applyOp fs (FsOp.writeFile (with_suffix filepath ".tmp") serialized) =
        fs.setFile (with_suffix filepath ".tmp") serialized := rfl
    rw [hw, happ]
    exact MicroFs.read_setFile_self _ _ _

/-- Witness for C8: the completed state of a concrete status.json
write holds the full content. -/
theorem C8_atomic_write_no_partial_content_witness :
    MicroFs.read [("status.json", "{}")] "status.json" =
      MicroFs.read ([] : MicroFs) "status.json" ∨
    MicroFs.read [("status.json", "{}")] "status.json" = some "{}" :=
  C8_atomic_write_no_partial_content [] "status.json" "{}" (by decide)
    [("status.json", "{}")] (by decide)

theorem any_eq_false_of_keys_ne (fields : List (String × Json)) (key : String)
    (h : ∀ p ∈ fields, p.1 ≠ key) :
    fields.any (fun p => p.1 == key) = false := by
  simp only [List.any_eq_false]
  intro p hp
  simpa using h p hp

theorem handle_outcome_of_resolve (fsA : Nat → Option RawFile) (el : Nat → ℚ)
    (fuel K : Nat) (input_data : InputData) (d : TaskDir) (j res : Json)
    (hA : ∀ i, i < K → fsA i = none)
    (hEl : ∀ i, i < K → el i < ANSWER_TIMEOUT)
    (hhit : fsA K = some (RawFile.valid j))
    (hres : resolveAnswers input_data.questions (some j) = Except.ok res)
    (hfuel : K < fuel) :
    (handle_ask_user_question fsA el fuel input_data d).2 =
      PollOutcome.ok (PermissionResult.allow
        (UpdatedInput.resolved input_data.questions res)) := by
  have hT : ∀ i, i < K → ¬ ANSWER_TIMEOUT < el i :=
    fun i hi => lt_asymm (hEl i hi)
  rw [handle_outcome_at fsA el fuel K input_data d hA hT hfuel]
  obtain ⟨n, hn⟩ : ∃ n, fuel - K = n + 1 := ⟨fuel - K - 1, by omega⟩
  rw [hn, pollLoop, hhit]
  dsimp only [read_json]
  rw [hres]

theorem resolveAnswers_text_cons (fields : List (String × Json)) (t : Json)
    (q : Question) (rest : List Question)
    (hnoans : ∀ p ∈ fields, p.1 ≠ "answers")
    (hfind : fields.find? (fun p => p.1 == "text") = some ("text", t)) :
    resolveAnswers (q :: rest) (some (Json.obj fields)) =
      Except.ok (Json.obj [(q.question, t)]) := by
  have hne : fields ≠ [] := by
    intro hf; rw [hf] at hfind; simp [List.find?] at hfind
  have htr : (Json.obj fields).truthy = true := by
    simp [Json.truthy, hne]
  have hanyA : fields.any (fun p => p.1 == "answers") = false :=
    any_eq_false_of_keys_ne fields "answers" hnoans
  have hanyT : fields.any (fun p => p.1 == "text") = true :=
    List.any_eq_true.mpr ⟨("text", t), List.mem_of_find?_eq_some hfind, by simp⟩
  simp [resolveAnswers, htr, Json.hasKey, hanyA, hanyT, Json.item, hfind]

theorem resolveAnswers_text_nil (fields : List (String × Json)) (t : Json)
    (hnoans : ∀ p ∈ fields, p.1 ≠ "answers")
    (hfind : fields.find? (fun p => p.1 == "text") = some ("text", t)) :
    resolveAnswers [] (some (Json.obj fields)) = Except.ok (Json.obj []) := by
  have hne : fields ≠ [] := by
    intro hf; rw [hf] at hfind; simp [List.find?] at hfind
  have htr : (Json.obj fields).truthy = true := by
    simp [Json.truthy, hne]
  have hanyA : fields.any (fun p => p.1 == "answers") = false :=
    any_eq_false_of_keys_ne fields "answers" hnoans
  have hanyT : fields.any (fun p => p.1 == "text") = true :=
    List.any_eq_true.mpr ⟨("text", t), List.mem_of_find?_eq_some hfind, by simp⟩
  simp [resolveAnswers, htr, Json.hasKey, hanyA, hanyT]

theorem resolveAnswers_unrecognized (qs : List Question)
    (fields : List (String × Json))
    (hnoans : ∀ p ∈ fields, p.1 ≠ "answers")
    (hnotext : ∀ p ∈ fields, p.1 ≠ "text") :
    resolveAnswers qs (some (Json.obj fields)) = Except.ok (Json.obj []) := by
  cases hf : fields with
  | nil => simp [resolveAnswers, Json.truthy]
  | cons p ps =>
      have htr : (Json.obj fields).truthy = true := by
        simp [Json.truthy, hf]
      have hanyA : fields.any (fun p => p.1 == "answers") = false :=
        any_eq_false_of_keys_ne fields "answers" hnoans
      have hanyT : fields.any (fun p => p.1 == "text") = false :=
        any_eq_false_of_keys_ne fields "text" hnotext
      rw [← hf]
      simp [resolveAnswers, htr, Json.hasKey, hanyA, hanyT]

/-- C2: if an answer artifact carrying an explicit answers mapping is
the first answer content the poll observes, and every poll before that
happened strictly before the deadline, the handler returns exactly
that mapping as the resolved answers, unchanged. -/
theorem C2_explicit_mapping_returned_verbatim
    (fsA : Nat → Option RawFile) (el : Nat → ℚ) (fuel K : Nat)
    (input_data : InputData) (d : TaskDir)
    (fields : List (String × Json)) (m : Json)
    (hA : ∀ j, j < K → fsA j = none)
    (hEl : ∀ j, j < K → el j < ANSWER_TIMEOUT)
    (hhit : fsA K = some (RawFile.valid (Json.obj fields)))
    (hfind : fields.find? (fun p => p.1 == "answers") = some ("answers", m))
    (hfuel : K < fuel) :
    (handle_ask_user_question fsA el fuel input_data d).2 =
      PollOutcome.ok (PermissionResult.allow
        (UpdatedInput.resolved input_data.questions m)) := by
  have hT : ∀ j, j < K → ¬ ANSWER_TIMEOUT < el j :=
    fun j hj => lt_asymm (hEl j hj)
  rw [handle_outcome_at fsA el fuel K input_data d hA hT hfuel]
  obtain ⟨n, hn⟩ : ∃ n, fuel - K = n + 1 := ⟨fuel - K - 1, by omega⟩
  rw [hn, pollLoop, hhit]
  dsimp only [read_json]
  have hne : fields ≠ [] := by
    intro hf; rw [hf] at hfind; simp [List.find?] at hfind
  have htr : (Json.obj fields).truthy = true := by
    simp [Json.truthy, hne]
  have hany : fields.any (fun p => p.1 == "answers") = true :=
    List.any_eq_true.mpr
      ⟨("answers", m), List.mem_of_find?_eq_some hfind, by simp⟩
  have hres : resolveAnswers input_data.questions (some (Json.obj fields)) =
      Except.ok m := by
    simp [resolveAnswers, htr, Json.hasKey, hany, Json.item, hfind]
  rw [hres]

/-- Witness for C2 at testable scenario B with an explicit mapping:
the mapping binding Proceed? to No is returned verbatim. -/
theorem C2_explicit_mapping_returned_verbatim_witness :
    (handle_ask_user_question mappingAnswerFs zeroClock 1 inpProceed runningDir).2 =
      PollOutcome.ok (PermissionResult.allow
        (UpdatedInput.resolved inpProceed.questions
          (Json.obj [("Proceed?", Json.str "No")]))) :=
  C2_explicit_mapping_returned_verbatim mappingAnswerFs zeroClock 1 0
    inpProceed runningDir
    [("answers", Json.obj [("Proceed?", Json.str "No")])]
    (Json.obj [("Proceed?", Json.str "No")])
    (fun j hj => absurd hj (Nat.not_lt_zero j))
    (fun j hj => absurd hj (Nat.not_lt_zero j))
    rfl rfl (by decide)

/-- C3 counterexample: on the question set with two sub-questions both
titled Q, a free-text answer Blue produces the one-entry mapping
binding Q to Blue — and the second sub-question is then NOT absent
from the mapping, since its text is the bound key.  The claim, as
stated, fails at this input. -/
theorem C3_counterexample :
    (handle_ask_user_question textAnswerFs zeroClock 1 inpDupNoOpt runningDir).2 =
      PollOutcome.ok (PermissionResult.allow
        (UpdatedInput.resolved dupNoOptQs (Json.obj [("Q", Json.str "Blue")]))) ∧
    ¬ (∀ q2 ∈ dupNoOptQs.tail,
        dictLookup [("Q", Json.str "Blue")] q2.question = none) := by
  refine ⟨rfl, ?_⟩
  intro h
  have h1 := h ⟨"Q", []⟩ (by simp [dupNoOptQs])
  simp [dictLookup] at h1

/-- C3 (amended): a free-text-only answer artifact yields a mapping
with exactly one entry, binding the free text to the first
sub-question's text; every other sub-question whose text differs from
the first's is absent from the mapping.  (A later sub-question that
repeats the first sub-question's text shares the bound key.) -/
theorem C3_free_text_binds_first_question
    (fsA : Nat → Option RawFile) (el : Nat → ℚ) (fuel K : Nat)
    (input_data : InputData) (d : TaskDir)
    (fields : List (String × Json)) (t : Json)
    (q : Question) (rest : List Question)
    (hqs : input_data.questions = q :: rest)
    (hA : ∀ i, i < K → fsA i = none)
    (hEl : ∀ i, i < K → el i < ANSWER_TIMEOUT)
    (hhit : fsA K = some (RawFile.valid (Json.obj fields)))
    (hnoans : ∀ p ∈ fields, p.1 ≠ "answers")
    (hfind : fields.find? (fun p => p.1 == "text") = some ("text", t))
    (hfuel : K < fuel) :
    (handle_ask_user_question fsA el fuel input_data d).2 =
      PollOutcome.ok (PermissionResult.allow
        (UpdatedInput.resolved (q :: rest) (Json.obj [(q.question, t)]))) ∧
    ∀ q2 ∈ rest, q2.question ≠ q.question →
      dictLookup [(q.question, t)] q2.question = none := by
  constructor
  · rw [← hqs]
    have hres : resolveAnswers input_data.questions (some (Json.obj fields)) =
        Except.ok (Json.obj [(q.question, t)]) := by
      rw [hqs]
      exact resolveAnswers_text_cons fields t q rest hnoans hfind
    have h := handle_outcome_of_resolve fsA el fuel K input_data d
      (Json.obj fields) (Json.obj [(q.question, t)]) hA hEl hhit hres hfuel
    rw [h, hqs]
  · intro q2 _ hne
    simp [dictLookup, Ne.symm hne]

/-- Witness for C3 at testable scenario C: two distinct sub-questions,
free-text answer Blue. -/
theorem C3_free_text_binds_first_question_witness :
    ((handle_ask_user_question textAnswerFs zeroClock 1 inpColor runningDir).2 =
      PollOutcome.ok (PermissionResult.allow
        (UpdatedInput.resolved colorQs
          (Json.obj [("Favorite color?", Json.str "Blue")])))) ∧
    (∀ q2 ∈ [(⟨"Size?", [⟨"Small"⟩]⟩ : Question)],
      q2.question ≠ "Favorite color?" →
      dictLookup [("Favorite color?", Json.str "Blue")] q2.question = none) :=
  C3_free_text_binds_first_question textAnswerFs zeroClock 1 0 inpColor
    runningDir [("text", Json.str "Blue")] (Json.str "Blue")
    ⟨"Favorite color?", [⟨"Red"⟩]⟩ [⟨"Size?", [⟨"Small"⟩]⟩]
    rfl
    (fun i hi => absurd hi (Nat.not_lt_zero i))
    (fun i hi => absurd hi (Nat.not_lt_zero i))
    rfl
    (by intro p hp; simp at hp; subst hp; decide)
    rfl (by decide)

/-- C10: with an empty intercepted question set, a free-text-only
answer artifact is silently discarded — the handler returns an allow
result whose answers mapping is empty. -/
theorem C10_empty_questions_free_text_discarded
    (fsA : Nat → Option RawFile) (el : Nat → ℚ) (fuel K : Nat)
    (input_data : InputData) (d : TaskDir)
    (fields : List (String × Json)) (t : Json)
    (hqs : input_data.questions = [])
    (hA : ∀ i, i < K → fsA i = none)
    (hEl : ∀ i, i < K → el i < ANSWER_TIMEOUT)
    (hhit : fsA K = some (RawFile.valid (Json.obj fields)))
    (hnoans : ∀ p ∈ fields, p.1 ≠ "answers")
    (hfind : fields.find? (fun p => p.1 == "text") = some ("text", t))
    (hfuel : K < fuel) :
    (handle_ask_user_question fsA el fuel input_data d).2 =
      PollOutcome.ok (PermissionResult.allow
        (UpdatedInput.resolved [] (Json.obj []))) := by
  have hres : resolveAnswers input_data.questions (some (Json.obj fields)) =
      Except.ok (Json.obj []) := by
    rw [hqs]
    exact resolveAnswers_text_nil fields t hnoans hfind
  have h := handle_outcome_of_resolve fsA el fuel K input_data d
    (Json.obj fields) (Json.obj []) hA hEl hhit hres hfuel
  rw [h, hqs]

/-- Witness for C10: empty question set, free-text answer Blue,
resolved answers empty. -/
theorem C10_empty_questions_free_text_discarded_witness :
    (handle_ask_user_question textAnswerFs zeroClock 1 inpEmpty runningDir).2 =
      PollOutcome.ok (PermissionResult.allow
        (UpdatedInput.resolved [] (Json.obj []))) :=
  C10_empty_questions_free_text_discarded textAnswerFs zeroClock 1 0 inpEmpty
    runningDir [("text", Json.str "Blue")] (Json.str "Blue")
    rfl
    (fun i hi => absurd hi (Nat.not_lt_zero i))
    (fun i hi => absurd hi (Nat.not_lt_zero i))
    rfl
    (by intro p hp; simp at hp; subst hp; decide)
    rfl (by decide)

/-- C6 counterexample: an answer artifact whose content is not valid
JSON makes handle_ask_user_question raise the decode error rather than
fall back to an empty answers mapping; the claim that malformed
content is tolerated fails at this input. -/
theorem C6_counterexample :
    (handle_ask_user_question invalidAnswerFs zeroClock 1 inpProceed
        runningDir).2 =
      PollOutcome.err ⟨"JSONDecodeError",
        "Expecting value: line 1 column 1 (char 0)"⟩ ∧
    ∀ r, (handle_ask_user_question invalidAnswerFs zeroClock 1 inpProceed
        runningDir).2 ≠ PollOutcome.ok r := by
  refine ⟨rfl, ?_⟩
  intro r h
  rw [show (handle_ask_user_question invalidAnswerFs zeroClock 1 inpProceed
      runningDir).2 =
    PollOutcome.err ⟨"JSONDecodeError",
      "Expecting value: line 1 column 1 (char 0)"⟩ from rfl] at h
  exact nomatch h

/-- C6 (amended): an answer artifact that parses as a JSON dict but
carries neither an answers nor a text field is tolerated — the handler
returns an allow result with an empty answers mapping; content that
fails to parse as JSON instead raises the decode error, which
propagates. -/
theorem C6_unrecognized_fields_empty_mapping
    (fsA : Nat → Option RawFile) (el : Nat → ℚ) (fuel K : Nat)
    (input_data : InputData) (d : TaskDir)
    (fields : List (String × Json))
    (hA : ∀ i, i < K → fsA i = none)
    (hEl : ∀ i, i < K → el i < ANSWER_TIMEOUT)
    (hhit : fsA K = some (RawFile.valid (Json.obj fields)))
    (hnoans : ∀ p ∈ fields, p.1 ≠ "answers")
    (hnotext : ∀ p ∈ fields, p.1 ≠ "text")
    (hfuel : K < fuel) :
    (handle_ask_user_question fsA el fuel input_data d).2 =
      PollOutcome.ok (PermissionResult.allow
        (UpdatedInput.resolved input_data.questions (Json.obj []))) :=
  handle_outcome_of_resolve fsA el fuel K input_data d
    (Json.obj fields) (Json.obj []) hA hEl hhit
    (resolveAnswers_unrecognized input_data.questions fields hnoans hnotext)
    hfuel

/-- Witness for C6 (amended): a dict with only an unrecognized field
yields the empty mapping. -/
theorem C6_unrecognized_fields_empty_mapping_witness :
    (handle_ask_user_question unrecognizedAnswerFs zeroClock 1 inpProceed
        runningDir).2 =
      PollOutcome.ok (PermissionResult.allow
        (UpdatedInput.resolved inpProceed.questions (Json.obj []))) :=
  C6_unrecognized_fields_empty_mapping unrecognizedAnswerFs zeroClock 1 0
    inpProceed runningDir [("foo", Json.str "bar")]
    (fun i hi => absurd hi (Nat.not_lt_zero i))
    (fun i hi => absurd hi (Nat.not_lt_zero i))
    rfl
    (by intro p hp; simp at hp; subst hp; decide)
    (by intro p hp; simp at hp; subst hp; decide)
    (by decide)

/-- C1 counterexample: on the question set with two sub-questions both
titled Q (first options X and Y respectively), the timeout default
dict keeps only the later binding, Q to Y; the first sub-question is
NOT assigned the label of its own first option.  The claim, as stated,
fails at this input. -/
theorem C1_counterexample :
    (handle_ask_user_question noAnswerFs lateClock 1 inpDup runningDir).2 =
      PollOutcome.ok (PermissionResult.allow
        (UpdatedInput.resolved dupQs (Json.obj [("Q", Json.str "Y")]))) ∧
    ¬ (∀ q ∈ dupQs,
        dictLookup [("Q", Json.str "Y")] q.question =
          some (Json.str (defaultLabel q))) := by
  refine ⟨rfl, ?_⟩
  intro h
  have h1 := h ⟨"Q", [⟨"X"⟩]⟩ (by simp [dupQs])
  simp [dictLookup, defaultLabel] at h1

/-- C1 (amended): when the answer wait times out with no answer
artifact ever present, the handler returns an allow result carrying
the default-answer dict; provided the sub-question texts are pairwise
distinct, that mapping assigns to every sub-question the label of its
first listed option, or the placeholder No preference when it has no
options.  (With duplicate texts a later sub-question overwrites an
earlier one in the dict.) -/
theorem C1_timeout_default_first_option
    (fsA : Nat → Option RawFile) (el : Nat → ℚ) (fuel K : Nat)
    (input_data : InputData) (d : TaskDir)
    (hA : ∀ i, i ≤ K → fsA i = none)
    (hT : ∀ i, i < K → ¬ ANSWER_TIMEOUT < el i)
    (hhit : ANSWER_TIMEOUT < el K)
    (hfuel : K < fuel)
    (hnd : (input_data.questions.map Question.question).Nodup) :
    (handle_ask_user_question fsA el fuel input_data d).2 =
      PollOutcome.ok (PermissionResult.allow
        (UpdatedInput.resolved input_data.questions
          (Json.obj (defaultAnswersDict input_data.questions)))) ∧
    ∀ q ∈ input_data.questions,
      dictLookup (defaultAnswersDict input_data.questions) q.question =
        some (Json.str (defaultLabel q)) := by
  constructor
  · rw [handle_outcome_at fsA el fuel K input_data d
      (fun i hi => hA i (Nat.le_of_lt hi)) hT hfuel]
    obtain ⟨n, hn⟩ : ∃ n, fuel - K = n + 1 := ⟨fuel - K - 1, by omega⟩
    rw [hn, pollLoop, hA K (Nat.le_refl K)]
    dsimp only
    rw [if_pos hhit]
  · intro q hq
    exact dictLookup_defaultAnswersDict input_data.questions q hq hnd

/-- Witness for C1 (amended) at testable scenario A: one sub-question
Proceed? with options Yes and No, timeout, default Yes. -/
theorem C1_timeout_default_first_option_witness :
    ((handle_ask_user_question noAnswerFs lateClock 1 inpProceed
        runningDir).2 =
      PollOutcome.ok (PermissionResult.allow
        (UpdatedInput.resolved inpProceed.questions
          (Json.obj (defaultAnswersDict inpProceed.questions))))) ∧
    (∀ q ∈ inpProceed.questions,
      dictLookup (defaultAnswersDict inpProceed.questions) q.question =
        some (Json.str (defaultLabel q))) :=
  C1_timeout_default_first_option noAnswerFs lateClock 1 0 inpProceed
    runningDir
    (fun i _ => rfl)
    (fun i hi => absurd hi (Nat.not_lt_zero i))
    (by decide) (by decide) (by decide)

/-- C4: whenever handle_ask_user_question returns a permission result —
via explicit mapping, free text, or timeout — the final task-directory
state of its trace has both the question artifact and the answer
artifact absent. -/
theorem C4_artifacts_absent_after_resolution
    (fsA : Nat → Option RawFile) (el : Nat → ℚ) (fuel : Nat)
    (input_data : InputData) (d : TaskDir) (r : PermissionResult)
    (h : (handle_ask_user_question fsA el fuel input_data d).2 =
      PollOutcome.ok r) :
    ∃ t, (handle_ask_user_question fsA el fuel input_data d).1.getLast? =
        some t ∧
      t.questionFile = none ∧ t.answerFile = none := by
  obtain ⟨t, hlast, hq, ha⟩ :=
    pollLoop_trace_last fsA el input_data.questions fuel 0
      { d with questionFile := some input_data.questions,
               statusFile := some ⟨"waiting_for_answer",
                 "Claude is asking a clarifying question"⟩,
               answerFile := none } r h
  refine ⟨t, ?_, hq, ha⟩
  rw [handle_trace_eq]
  exact List.mem_getLast?_cons (List.mem_getLast?_cons
    (List.mem_getLast?_cons (List.mem_getLast?_cons hlast)))

/-- Witness for C4: a concrete run resolved by an explicit mapping
ends with both artifacts absent. -/
theorem C4_artifacts_absent_after_resolution_witness :
    ∃ t, (handle_ask_user_question mappingAnswerFs zeroClock 1 inpProceed
        runningDir).1.getLast? = some t ∧
      t.questionFile = none ∧ t.answerFile = none :=
  C4_artifacts_absent_after_resolution mappingAnswerFs zeroClock 1
    inpProceed runningDir
    (PermissionResult.allow (UpdatedInput.resolved inpProceed.questions
      (Json.obj [("Proceed?", Json.str "No")])))
    rfl

/-- C5 counterexample: immediately after the handler persists
question.json and before it updates status.json (trace index 1), the
question artifact exists while the status state tag is still running;
the claim that a question artifact's presence always implies status
waiting_for_answer fails at this point. -/
theorem C5_counterexample :
    ¬ (∀ i t, (handle_ask_user_question mappingAnswerFs zeroClock 1
          inpProceed runningDir).1.get? i = some t →
        t.questionFile.isSome →
        statusTag t = some "waiting_for_answer") := by
  intro h
  have h1 := h 1 { runningDir with questionFile := some inpProceed.questions }
    rfl rfl
  simp [statusTag, runningDir] at h1

/-- C5 (amended): provided the question artifact is absent when the
handler is entered, at every point of the handler's trace other than
the single point between persisting question.json and updating
status.json (index 1), the question artifact's presence implies the
status state tag is waiting_for_answer; in particular status only
returns to running after the question artifact is removed. -/
theorem C5_question_implies_waiting_status
    (fsA : Nat → Option RawFile) (el : Nat → ℚ) (fuel : Nat)
    (input_data : InputData) (d : TaskDir)
    (hd : d.questionFile = none) :
    ∀ i t, i ≠ 1 →
      (handle_ask_user_question fsA el fuel input_data d).1.get? i = some t →
      t.questionFile.isSome → statusTag t = some "waiting_for_answer" := by
  intro i t hne hget hq
  rw [handle_trace_eq] at hget
  match i, hne, hget with
  | 0, _, hget =>
      obtain rfl : d = t := Option.some.inj hget
      rw [hd] at hq
      exact absurd hq (by simp)
  | 1, hne, _ => exact absurd rfl hne
  | 2, _, hget =>
      obtain rfl := Option.some.inj hget
      rfl
  | 3, _, hget =>
      obtain rfl := Option.some.inj hget
      rfl
  | (n + 4), _, hget =>
      exact pollLoop_trace_status fsA el input_data.questions fuel 0
        { d with questionFile := some input_data.questions,
                 statusFile := some ⟨"waiting_for_answer",
                   "Claude is asking a clarifying question"⟩,
                 answerFile := none }
        rfl t (List.get?_mem hget) hq

/-- Witness for C5 (amended): at trace index 2 of a concrete run the
question artifact is present and the status tag is waiting_for_answer. -/
theorem C5_question_implies_waiting_status_witness :
    statusTag { runningDir with
        questionFile := some inpProceed.questions,
        statusFile := some ⟨"waiting_for_answer",
          "Claude is asking a clarifying question"⟩ } =
      some "waiting_for_answer" :=
  C5_question_implies_waiting_status mappingAnswerFs zeroClock 1 inpProceed
    runningDir rfl 2
    { runningDir with
        questionFile := some inpProceed.questions,
        statusFile := some ⟨"waiting_for_answer",
          "Claude is asking a clarifying question"⟩ }
    (by decide) rfl rfl

/-- C7: if the agent run raises an uncaught exception, run_bridge
writes a status artifact with state error whose detail is the
exception class name and message, appends a bridge-error line for the
fault to the output log, and re-raises the same exception. -/
theorem C7_fault_recorded_and_reraised (task_id workdir prompt : String)
    (session : Session) (d0 : TaskDir) (e : PyErr)
    (hf : session.fault = some e) :
    (run_bridge task_id workdir prompt session d0).2 = Except.error e ∧
    (run_bridge task_id workdir prompt session d0).1.statusFile =
      some ⟨"error", e.name ++ ": " ++ e.msg⟩ ∧
    (run_bridge task_id workdir prompt session d0).1.log.getLast? =
      some ("\n[BRIDGE ERROR] " ++ e.name ++ ": " ++ e.msg ++ "\n") := by
  obtain ⟨msgs, fault⟩ := session
  dsimp only at hf
  subst hf
  refine ⟨rfl, rfl, ?_⟩
  exact List.getLast?_concat _

/-- Witness for C7: a session raising ValueError boom after one text
message. -/
theorem C7_fault_recorded_and_reraised_witness :
    (run_bridge "t1" "/w" "p" faultSession {}).2 =
      Except.error ⟨"ValueError", "boom"⟩ ∧
    (run_bridge "t1" "/w" "p" faultSession {}).1.statusFile =
      some ⟨"error", "ValueError" ++ ": " ++ "boom"⟩ ∧
    (run_bridge "t1" "/w" "p" faultSession {}).1.log.getLast? =
      some ("\n[BRIDGE ERROR] " ++ "ValueError" ++ ": " ++ "boom" ++ "\n") :=
  C7_fault_recorded_and_reraised "t1" "/w" "p" faultSession {}
    ⟨"ValueError", "boom"⟩ rfl

/-- C9: a tool invocation whose name is not AskUserQuestion is allowed
with its input unchanged and with no write to the task directory
(empty trace, hence no question or status artifact), and an assistant
message carrying a tool-use block puts the one-line marker naming the
tool into the output log. -/
theorem C9_non_interactive_auto_approved_and_logged :
    (∀ (fsA : Nat → Option RawFile) (el : Nat → ℚ) (fuel : Nat)
        (tool_name : String) (input_data : InputData) (d : TaskDir),
      tool_name ≠ "AskUserQuestion" →
      can_use_tool fsA el fuel tool_name input_data d =
        ([], PollOutcome.ok (PermissionResult.allow
          (UpdatedInput.raw input_data)))) ∧
    (∀ (d : TaskDir) (blocks : List ContentBlock) (name : String),
      ContentBlock.toolUseBlock name ∈ blocks →
      ("[Tool: " ++ name ++ "]\n") ∈
        (processMessage d (Message.assistant blocks)).log) := by
  constructor
  · intro fsA el fuel tool_name input_data d hne
    simp [can_use_tool, hne]
  · intro d blocks name h
    exact marker_in_log_of_toolUse blocks d name h

/-- Witness for C9: the Bash tool is passed through unchanged with an
empty trace, and its tool-use block is logged as a marker. -/
theorem C9_non_interactive_auto_approved_and_logged_witness :
    (can_use_tool noAnswerFs zeroClock 1 "Bash" inpEmpty runningDir =
      ([], PollOutcome.ok (PermissionResult.allow
        (UpdatedInput.raw inpEmpty)))) ∧
    ("[Tool: " ++ "Bash" ++ "]\n") ∈
      (processMessage runningDir
        (Message.assistant [ContentBlock.toolUseBlock "Bash"])).log :=
  ⟨C9_non_interactive_auto_approved_and_logged.1 noAnswerFs zeroClock 1
      "Bash" inpEmpty runningDir (by decide),
   C9_non_interactive_auto_approved_and_logged.2 runningDir
      [ContentBlock.toolUseBlock "Bash"] "Bash" (List.mem_singleton.mpr rfl)⟩

end Bridge
